import Mathlib

/-!
Verification of the Chronopost scheduled-post dispatcher.

Shallow embedding of the TypeScript sources:
* `PostService` (post state machine, retry accounting) — backend/src/services/bluesky/post-service.ts
* `RateLimiter` — backend/src/services/bluesky/rate-limiter.ts
* `TokenManager` (AES-256-GCM at-rest encryption, session token store) — backend/src/services/oauth/token-manager.ts
* `DPoPManager.createProof` and `dpopUtils.normalizeUrl` — backend/src/services/oauth/dpop-manager.ts
* `BlueskyApiClient.makeRequest` — backend/src/services/bluesky/api-client.ts

Database rows become Lean structures, `Date` values become integer timestamps
(milliseconds), thrown exceptions become `Except String`, and the outcome of
an external HTTP call is passed in as an explicit argument.
-/

deriving instance DecidableEq for Except

namespace Chronopost

/-- Embedding of JavaScript `String.prototype.split` with a one-character
separator, on the character list of the string.  JS `split` always returns a
non-empty array; splitting the empty string gives one empty group. -/
def jsSplitList (sep : Char) : List Char → List (List Char)
  | [] => [[]]
  | c :: rest =>
      if c = sep then [] :: jsSplitList sep rest
      else
        match jsSplitList sep rest with
        | [] => [[c]]
        | g :: gs => (c :: g) :: gs

/-- JavaScript `s.split(sep)` for a one-character separator. -/
def jsSplit (sep : Char) (s : String) : List String :=
  (jsSplitList sep s.data).map String.mk

/-- Post status enum from packages/shared/src/types/api.ts (`PostStatus`).
The Prisma schema and the shared types use PROCESSING for the in-flight state. -/
inductive PostStatus
  | PENDING
  | PROCESSING
  | COMPLETED
  | FAILED
  | CANCELLED
deriving DecidableEq, Repr

/-- One `scheduled_posts` row, with the fields PostService reads or writes.
Timestamps are integer epoch milliseconds. -/
structure Post where
  id : String
  userId : String
  content : String
  scheduledAt : Int
  status : PostStatus
  createdAt : Int
  executedAt : Option Int := none
  errorMsg : Option String := none
  retryCount : Nat := 0
  blueskyUri : Option String := none
  blueskyRkey : Option String := none
deriving DecidableEq, Repr

/-- Outcome of the external `apiClient.createPost` call (the network publish),
passed to `executePost` as an explicit input. -/
inductive PublishOutcome
  | success (uri : String)
  | failure (msg : String)
deriving DecidableEq, Repr

/-- Result of one `executePost` run: the final row (or the thrown error), how
many publish calls were made, and whether the unconditional update to
PROCESSING (the "claim") was written. -/
structure ExecResult where
  result : Except String Post
  publishCalls : Nat
  claimed : Bool
deriving Repr

/-- Embedding of `result.uri.split('/').pop() || ''` from the success branch of
`PostService.executePost`: the trailing `/`-separated segment of the URI
(JS `pop()` on the non-empty array returned by `split`). -/
def trailingSegment (uri : String) : String :=
  ((jsSplit '/' uri).getLast?).getD ""

/-- Embedding of `PostService.executePost` (post-service.ts lines 332-388).
The post is looked up first (we model the looked-up row as the argument);
a status other than PENDING or FAILED throws before any publish; otherwise the
row is unconditionally updated to PROCESSING (no `WHERE status` clause, so no
compare-and-set), the publish is attempted, and the final update is written
from the publish outcome.  On failure `retryCount` becomes the previously read
value plus one and the status becomes FAILED when that reaches
`maxRetries = 3`, else PENDING. -/
def executePost (p : Post) (pub : PublishOutcome) (now : Int) : ExecResult :=
  if p.status ≠ PostStatus.PENDING ∧ p.status ≠ PostStatus.FAILED then
    { result := Except.error "Cannot execute post with this status",
      publishCalls := 0, claimed := false }
  else
    match pub with
    | PublishOutcome.success uri =>
        { result := Except.ok { p with
            status := PostStatus.COMPLETED,
            executedAt := some now,
            blueskyUri := some uri,
            blueskyRkey := some (trailingSegment uri) },
          publishCalls := 1, claimed := true }
    | PublishOutcome.failure msg =>
        let retryCount := p.retryCount + 1
        { result := Except.ok { p with
            status := if retryCount ≥ 3 then PostStatus.FAILED else PostStatus.PENDING,
            retryCount := retryCount,
            errorMsg := some msg },
          publishCalls := 1, claimed := true }

/-- Embedding of `PostService.createScheduledPost` (post-service.ts lines
169-193): rejects a scheduled time not in the future, then inserts a PENDING
row with `retryCount = 0`. -/
def createScheduledPost (id userId content : String) (scheduledAt now : Int) :
    Except String Post :=
  if scheduledAt ≤ now then
    Except.error "Scheduled time must be in the future"
  else
    Except.ok { id := id, userId := userId, content := content,
                scheduledAt := scheduledAt, status := PostStatus.PENDING,
                createdAt := now, retryCount := 0 }

/-- Embedding of `PostService.updateScheduledPost` (post-service.ts lines
225-253): authorization check, PENDING-only, future-date check for a supplied
`scheduledAt`, then updates only `content` and `scheduledAt`. -/
def updateScheduledPost (p : Post) (actingUser : String)
    (content : Option String) (scheduledAt : Option Int) (now : Int) :
    Except String Post :=
  if p.userId ≠ actingUser then
    Except.error "Unauthorized access to post"
  else if p.status ≠ PostStatus.PENDING then
    Except.error "Cannot update post with this status"
  else if (scheduledAt.map (fun d => decide (d ≤ now))).getD false then
    Except.error "Scheduled time must be in the future"
  else
    Except.ok { p with content := content.getD p.content,
                       scheduledAt := scheduledAt.getD p.scheduledAt }

/-- Embedding of `PostService.deleteScheduledPost` (post-service.ts lines
261-279): authorization check, PENDING-only, then sets status to CANCELLED. -/
def deleteScheduledPost (p : Post) (actingUser : String) : Except String Post :=
  if p.userId ≠ actingUser then
    Except.error "Unauthorized access to post"
  else if p.status ≠ PostStatus.PENDING then
    Except.error "Cannot delete post with this status"
  else
    Except.ok { p with status := PostStatus.CANCELLED }

/-- Post rows reachable through the PostService operations, starting from a
freshly created row. -/
inductive ReachablePost : Post → Prop
  | created {id userId content : String} {scheduledAt now : Int} {p : Post} :
      createScheduledPost id userId content scheduledAt now = Except.ok p →
      ReachablePost p
  | updated {p q : Post} {actingUser : String} {content : Option String}
      {scheduledAt : Option Int} {now : Int} :
      ReachablePost p →
      updateScheduledPost p actingUser content scheduledAt now = Except.ok q →
      ReachablePost q
  | cancelled {p q : Post} {actingUser : String} :
      ReachablePost p →
      deleteScheduledPost p actingUser = Except.ok q →
      ReachablePost q
  | executed {p q : Post} {pub : PublishOutcome} {now : Int} :
      ReachablePost p →
      (executePost p pub now).result = Except.ok q →
      ReachablePost q

/-- Unfolding lemma for the success branch of `executePost`. -/
theorem executePost_success_eq (p : Post) (uri : String) (now : Int)
    (h : ¬ (p.status ≠ PostStatus.PENDING ∧ p.status ≠ PostStatus.FAILED)) :
    executePost p (PublishOutcome.success uri) now =
      { result := Except.ok { p with
          status := PostStatus.COMPLETED,
          executedAt := some now,
          blueskyUri := some uri,
          blueskyRkey := some (trailingSegment uri) },
        publishCalls := 1, claimed := true } := by
  unfold executePost
  rw [if_neg h]

/-- Unfolding lemma for the failure branch of `executePost`. -/
theorem executePost_failure_eq (p : Post) (msg : String) (now : Int)
    (h : ¬ (p.status ≠ PostStatus.PENDING ∧ p.status ≠ PostStatus.FAILED)) :
    executePost p (PublishOutcome.failure msg) now =
      { result := Except.ok { p with
          status := if p.retryCount + 1 ≥ 3 then PostStatus.FAILED else PostStatus.PENDING,
          retryCount := p.retryCount + 1,
          errorMsg := some msg },
        publishCalls := 1, claimed := true } := by
  unfold executePost
  rw [if_neg h]

/-! Claim C1: the claimed atomic CAS on PENDING.  The code has no
`WHERE status='PENDING'` clause (the PROCESSING update is unconditional) and
also executes posts whose status is FAILED, so a post whose status is not
PENDING can be executed and published. -/

/-- Concrete FAILED post used to refute C1. -/
def c1FailedPost : Post :=
  { id := "p1", userId := "u1", content := "hello", scheduledAt := 0,
    status := PostStatus.FAILED, createdAt := 0, retryCount := 0 }

/-- C1 counterexample: a post whose status is FAILED (hence not PENDING) is
nevertheless executed — `executePost` claims it, makes one publish call and
completes it, instead of returning an error with no publish call. -/
theorem c1_failed_post_is_executed :
    c1FailedPost.status ≠ PostStatus.PENDING ∧
    (executePost c1FailedPost (PublishOutcome.success "at://did:plc:abc/app.bsky.feed.post/3kxyz") 5).publishCalls = 1 ∧
    (executePost c1FailedPost (PublishOutcome.success "at://did:plc:abc/app.bsky.feed.post/3kxyz") 5).claimed = true ∧
    (executePost c1FailedPost (PublishOutcome.success "at://did:plc:abc/app.bsky.feed.post/3kxyz") 5).result =
      Except.ok { c1FailedPost with
        status := PostStatus.COMPLETED, executedAt := some 5,
        blueskyUri := some "at://did:plc:abc/app.bsky.feed.post/3kxyz",
        blueskyRkey := some "3kxyz" } := by
  refine ⟨by decide, rfl, rfl, ?_⟩
  decide

/-- C1 (amended): `executePost` rejects a post by a read-then-write check, not
a CAS, and the statuses it executes are PENDING and FAILED.  A post whose
status is neither PENDING nor FAILED gets an error, is never claimed, and no
publish call is made. -/
theorem executePost_rejects_terminal_status (p : Post) (pub : PublishOutcome)
    (now : Int) (h1 : p.status ≠ PostStatus.PENDING)
    (h2 : p.status ≠ PostStatus.FAILED) :
    (executePost p pub now).result = Except.error "Cannot execute post with this status" ∧
    (executePost p pub now).publishCalls = 0 ∧
    (executePost p pub now).claimed = false := by
  unfold executePost
  rw [if_pos ⟨h1, h2⟩]
  exact ⟨rfl, rfl, rfl⟩

/-- Concrete COMPLETED post used in the C1 witness. -/
def c1CompletedPost : Post :=
  { id := "p1w", userId := "u1", content := "hello", scheduledAt := 0,
    status := PostStatus.COMPLETED, createdAt := 0, retryCount := 0,
    executedAt := some 1, blueskyUri := some "at://x/y/z",
    blueskyRkey := some "z" }

/-- Witness for `executePost_rejects_terminal_status` at a COMPLETED post. -/
theorem executePost_rejects_terminal_status_witness :
    c1CompletedPost.status ≠ PostStatus.PENDING ∧
    c1CompletedPost.status ≠ PostStatus.FAILED ∧
    (executePost c1CompletedPost (PublishOutcome.failure "boom") 9).result =
      Except.error "Cannot execute post with this status" :=
  ⟨by decide, by decide,
    (executePost_rejects_terminal_status c1CompletedPost
      (PublishOutcome.failure "boom") 9 (by decide) (by decide)).1⟩

/-! Claim C2: the retry bound.  The per-failure update rule holds, but because
FAILED posts can be executed again, `retryCount` is not bounded by 3 and a
fourth publish attempt happens. -/

/-- Fresh post for the C2 retry chain. -/
def c2p0 : Post :=
  { id := "p2", userId := "u", content := "x", scheduledAt := 1,
    status := PostStatus.PENDING, createdAt := 0, retryCount := 0 }

/-- The chain post after one failed execution. -/
def c2p1 : Post := { c2p0 with retryCount := 1, errorMsg := some "503" }

/-- The chain post after two failed executions. -/
def c2p2 : Post := { c2p0 with retryCount := 2, errorMsg := some "503" }

/-- The chain post after three failed executions (now FAILED). -/
def c2p3 : Post :=
  { c2p0 with retryCount := 3, status := PostStatus.FAILED, errorMsg := some "503" }

/-- The chain post after a fourth failed execution: `retryCount = 4`. -/
def c2p4 : Post :=
  { c2p0 with retryCount := 4, status := PostStatus.FAILED, errorMsg := some "503" }

/-- C2 counterexample: a post reachable through `executePost` with
`retryCount = 4 > 3`, produced by a fourth publish attempt on a FAILED post
(which `executePost` accepts). -/
theorem c2_retry_count_exceeds_three :
    ReachablePost c2p4 ∧ c2p4.retryCount = 4 ∧ ¬ c2p4.retryCount ≤ 3 ∧
    (executePost c2p3 (PublishOutcome.failure "503") 100).publishCalls = 1 := by
  refine ⟨?_, by decide, by decide, rfl⟩
  have h0 : ReachablePost c2p0 :=
    @ReachablePost.created "p2" "u" "x" 1 0 c2p0 (by decide)
  have h1 : ReachablePost c2p1 :=
    @ReachablePost.executed c2p0 c2p1 (PublishOutcome.failure "503") 100 h0 (by decide)
  have h2 : ReachablePost c2p2 :=
    @ReachablePost.executed c2p1 c2p2 (PublishOutcome.failure "503") 100 h1 (by decide)
  have h3 : ReachablePost c2p3 :=
    @ReachablePost.executed c2p2 c2p3 (PublishOutcome.failure "503") 100 h2 (by decide)
  exact @ReachablePost.executed c2p3 c2p4 (PublishOutcome.failure "503") 100 h3 (by decide)

/-- C2 (amended): for every post whose execution attempt fails, `executePost`
sets `retryCount` to the previously read value plus one, sets the status to
PENDING (with the error message) when the new count is below 3 and to FAILED
when it is at least 3 — but since FAILED posts are executable again, the count
is not bounded by 3. -/
theorem executePost_failure_retry_rule (p : Post) (msg : String) (now : Int)
    (h : p.status = PostStatus.PENDING ∨ p.status = PostStatus.FAILED) :
    (executePost p (PublishOutcome.failure msg) now).result = Except.ok { p with
      status := if p.retryCount + 1 ≥ 3 then PostStatus.FAILED else PostStatus.PENDING,
      retryCount := p.retryCount + 1,
      errorMsg := some msg } := by
  have hn : ¬ (p.status ≠ PostStatus.PENDING ∧ p.status ≠ PostStatus.FAILED) := by
    rcases h with h | h <;> simp [h]
  rw [executePost_failure_eq p msg now hn]

/-- Witness for `executePost_failure_retry_rule` on a PENDING post with
`retryCount = 2`: the failure yields `retryCount = 3` and status FAILED. -/
theorem executePost_failure_retry_rule_witness :
    c2p2.status = PostStatus.PENDING ∧
    (executePost c2p2 (PublishOutcome.failure "503") 100).result = Except.ok c2p3 := by
  refine ⟨by decide, ?_⟩
  have h := executePost_failure_retry_rule c2p2 "503" 100 (Or.inl (by decide))
  rw [h]
  decide

/-! Claim C3: the COMPLETED iff (blueskyUri set and executedAt set) invariant,
proved for every post reachable through the PostService operations. -/

/-- C3: for every post reachable through the PostService operations,
`status = COMPLETED` holds iff both `blueskyUri` and `executedAt` are set;
only the success branch of `executePost` establishes all of them, in one
update. -/
theorem completed_iff_uri_and_executedAt (p : Post) (h : ReachablePost p) :
    p.status = PostStatus.COMPLETED ↔
      (p.blueskyUri.isSome ∧ p.executedAt.isSome) := by
  induction h with
  | @created id userId content scheduledAt now p hc =>
    unfold createScheduledPost at hc
    split at hc
    · exact Except.noConfusion hc
    · injection hc with hq
      subst hq
      exact iff_of_false (fun hco => PostStatus.noConfusion hco) (by simp)
  | @updated p q actingUser content scheduledAt now hp hu ih =>
    unfold updateScheduledPost at hu
    split at hu
    · exact Except.noConfusion hu
    split at hu
    · exact Except.noConfusion hu
    split at hu
    · exact Except.noConfusion hu
    injection hu with hq
    subst hq
    exact ih
  | @cancelled p q actingUser hp hd ih =>
    unfold deleteScheduledPost at hd
    split at hd
    · exact Except.noConfusion hd
    split at hd
    · exact Except.noConfusion hd
    next hpend =>
      injection hd with hq
      subst hq
      have hpend' : p.status = PostStatus.PENDING := not_not.mp hpend
      refine iff_of_false (fun hco => PostStatus.noConfusion hco) (fun hrhs => ?_)
      have hco := ih.mpr (by simpa using hrhs)
      rw [hpend'] at hco
      exact PostStatus.noConfusion hco
  | @executed p q pub now hp he ih =>
    rcases Decidable.em (p.status ≠ PostStatus.PENDING ∧ p.status ≠ PostStatus.FAILED)
      with hst | hst
    · unfold executePost at he
      rw [if_pos hst] at he
      exact Except.noConfusion he
    · have hnc : p.status ≠ PostStatus.COMPLETED := by
        rcases Decidable.em (p.status = PostStatus.PENDING) with h1 | h1
        · simp [h1]
        · have h2 : p.status = PostStatus.FAILED := by
            by_contra h2
            exact hst ⟨h1, h2⟩
          simp [h2]
      cases pub with
      | success uri =>
        rw [executePost_success_eq p uri now hst] at he
        injection he with hq
        subst hq
        simp
      | failure msg =>
        rw [executePost_failure_eq p msg now hst] at he
        injection he with hq
        subst hq
        refine iff_of_false (fun hco => ?_) (fun hrhs => ?_)
        · simp only at hco
          split at hco <;> exact PostStatus.noConfusion hco
        · exact absurd (ih.mpr (by simpa using hrhs)) hnc

/-- Concrete freshly created post used in the C3 witness. -/
def c3Post : Post :=
  { id := "p3", userId := "u3", content := "hi", scheduledAt := 10,
    status := PostStatus.PENDING, createdAt := 0, retryCount := 0 }

/-- Witness for `completed_iff_uri_and_executedAt` at a freshly created post:
it is reachable, and the equivalence holds there (both sides false). -/
theorem completed_iff_uri_and_executedAt_witness :
    createScheduledPost "p3" "u3" "hi" 10 0 = Except.ok c3Post ∧
    (c3Post.status = PostStatus.COMPLETED ↔
      (c3Post.blueskyUri.isSome ∧ c3Post.executedAt.isSome)) :=
  ⟨by decide,
    completed_iff_uri_and_executedAt c3Post
      (@ReachablePost.created "p3" "u3" "hi" 10 0 c3Post (by decide))⟩

/-! Claim C9: `RateLimiter.wouldExceedLimit` (rate-limiter.ts lines 43-58).
The code lazily applies the window reset inside the check, mutating the stored
entry, so the operation is not non-mutating. -/

/-- One value of the `limits` map of `RateLimiter`:
`(count, resetAt, maxPerWindow, windowMs)`. -/
structure LimitEntry where
  count : Nat
  resetAt : Int
  maxPerWindow : Nat
  windowMs : Int
deriving DecidableEq, Repr

/-- The `limits` map, as an association list in insertion order. -/
abbrev RateLimits := List (String × LimitEntry)

/-- Embedding of `this.limits.get(endpoint)`. -/
def limitsGet (l : RateLimits) (endpoint : String) : Option LimitEntry :=
  (l.find? (fun kv => kv.1 == endpoint)).map (fun kv => kv.2)

/-- Embedding of `this.limits.set(endpoint, v)` (JS Map: update in place or
append). -/
def limitsSet (l : RateLimits) (endpoint : String) (v : LimitEntry) : RateLimits :=
  match l with
  | [] => [(endpoint, v)]
  | kv :: rest =>
      if kv.1 == endpoint then (endpoint, v) :: rest
      else kv :: limitsSet rest endpoint v

/-- Embedding of `RateLimiter.configureLimit`. -/
def configureLimit (l : RateLimits) (now : Int) (endpoint : String)
    (maxPerWindow : Nat) (windowMs : Int) : RateLimits :=
  limitsSet l endpoint
    { count := 0, resetAt := now + windowMs,
      maxPerWindow := maxPerWindow, windowMs := windowMs }

/-- Embedding of `RateLimiter.wouldExceedLimit`.  Returns the boolean answer
and the limiter state after the call: the lazy reset (`now > resetAt`) writes
`count = 0` and `resetAt = now + windowMs` into the stored entry before the
comparison. -/
def wouldExceedLimit (l : RateLimits) (now : Int) (endpoint : String)
    (count : Nat) : Bool × RateLimits :=
  match limitsGet l endpoint with
  | none => (false, l)
  | some limit =>
      if now > limit.resetAt then
        let limit' : LimitEntry :=
          { limit with count := 0, resetAt := now + limit.windowMs }
        (decide (limit'.count + count > limit'.maxPerWindow),
         limitsSet l endpoint limit')
      else
        (decide (limit.count + count > limit.maxPerWindow), l)

/-- Embedding of `RateLimiter.recordRequest` (returns `none` for the JS
`Infinity` of an unconfigured endpoint, else the remaining budget). -/
def recordRequest (l : RateLimits) (now : Int) (endpoint : String)
    (count : Nat) : Option Nat × RateLimits :=
  match limitsGet l endpoint with
  | none => (none, l)
  | some limit =>
      let limit1 : LimitEntry :=
        if now > limit.resetAt then
          { limit with count := 0, resetAt := now + limit.windowMs }
        else limit
      let limit2 : LimitEntry := { limit1 with count := limit1.count + count }
      (some (limit2.maxPerWindow - limit2.count), limitsSet l endpoint limit2)

/-- Limiter with one configured endpoint and one recorded request, used to
exhibit the mutation. -/
def c9l1 : RateLimits := (recordRequest (configureLimit [] 0 "bluesky_api" 10 1000) 0 "bluesky_api" 1).2

/-- The entry stored in `c9l1`. -/
def c9entry : LimitEntry :=
  { count := 1, resetAt := 1000, maxPerWindow := 10, windowMs := 1000 }

/-- C9 counterexample: calling `wouldExceedLimit` after the window has elapsed
changes the limiter's observable state (the entry's `count` and `resetAt` are
rewritten), so the operation is not non-mutating. -/
theorem c9_wouldExceedLimit_mutates :
    (wouldExceedLimit c9l1 2000 "bluesky_api" 1).2 ≠ c9l1 ∧
    (wouldExceedLimit c9l1 2000 "bluesky_api" 1).2 =
      [("bluesky_api", { count := 0, resetAt := 3000, maxPerWindow := 10, windowMs := 1000 })] ∧
    (wouldExceedLimit c9l1 2000 "bluesky_api" 1).1 = false := by
  refine ⟨by decide, by decide, by decide⟩

/-- C9 (amended): `wouldExceedLimit` returns the boolean described by the
claim (post-reset window count plus `n` over the maximum, with the code's
strict `now > windowResetsAt` reset rule), leaves the state unchanged for an
unconfigured endpoint or while the window has not elapsed, and mutates the
entry (lazy reset) when `now > windowResetsAt`. -/
theorem wouldExceedLimit_spec (l : RateLimits) (now : Int) (e : String) (n : Nat) :
    (limitsGet l e = none → wouldExceedLimit l now e n = (false, l)) ∧
    (∀ limit : LimitEntry, limitsGet l e = some limit → now ≤ limit.resetAt →
      wouldExceedLimit l now e n =
        (decide (limit.count + n > limit.maxPerWindow), l)) ∧
    (∀ limit : LimitEntry, limitsGet l e = some limit → now > limit.resetAt →
      wouldExceedLimit l now e n =
        (decide (n > limit.maxPerWindow),
         limitsSet l e { limit with count := 0, resetAt := now + limit.windowMs })) := by
  refine ⟨fun h => ?_, fun limit h hle => ?_, fun limit h hgt => ?_⟩
  · unfold wouldExceedLimit
    rw [h]
  · unfold wouldExceedLimit
    rw [h]
    simp only [not_lt.mpr hle, if_false]
  · unfold wouldExceedLimit
    rw [h]
    simp only [hgt, if_true, Nat.zero_add]

/-- Witness for `wouldExceedLimit_spec`: inside the window the call answers
false and the state is untouched. -/
theorem wouldExceedLimit_spec_witness :
    limitsGet c9l1 "bluesky_api" = some c9entry ∧
    (500 : Int) ≤ c9entry.resetAt ∧
    wouldExceedLimit c9l1 500 "bluesky_api" 1 = (false, c9l1) := by
  refine ⟨by decide, by decide, ?_⟩
  have h := (wouldExceedLimit_spec c9l1 500 "bluesky_api" 1).2.1 c9entry
    (by decide) (by decide)
  exact h.trans (by decide)

/-! TokenManager (token-manager.ts): AES-256-GCM encryption at rest.
The cipher itself is the Node `crypto` library, external to the repository: it
is modelled as an abstract authenticated cipher `AEAD` carrying the standard
GCM facts the code relies on (decryption inverts encryption, the ciphertext
is empty exactly for the empty plaintext since GCM is length-preserving, and
the auth tag is 16 bytes).  The hex encoding, the `iv:authTag:ciphertext`
stored format, the `split(':')` parsing and the falsy-emptiness checks are the
repository's own code and are embedded directly. -/

/-- Bytes as used by Node `Buffer`. -/
abbrev Byte := Fin 256

/-- Lower-case hex digit for a 4-bit value (Node `toString('hex')` output
alphabet). -/
def hexDigitChar (n : Fin 16) : Char :=
  Char.ofNat (if n.val < 10 then 48 + n.val else 87 + n.val)

/-- Hex digit value of a character (Node `Buffer.from(_, 'hex')` accepts both
cases). -/
def hexDigitVal (c : Char) : Option (Fin 16) :=
  let n := c.toNat
  if h : 48 ≤ n ∧ n ≤ 57 then some ⟨n - 48, by omega⟩
  else if h : 97 ≤ n ∧ n ≤ 102 then some ⟨n - 87, by omega⟩
  else if h : 65 ≤ n ∧ n ≤ 70 then some ⟨n - 55, by omega⟩
  else none

/-- Embedding of `buffer.toString('hex')`: two lower-case hex digits per
byte. -/
def hexEncodeBytes : List Byte → List Char
  | [] => []
  | b :: bs =>
      hexDigitChar ⟨b.val / 16, by omega⟩ ::
      hexDigitChar ⟨b.val % 16, by omega⟩ :: hexEncodeBytes bs

/-- Embedding of `Buffer.from(hexString, 'hex')` on valid input (invalid hex
gives `none`; Node truncates instead, but nothing in the verified paths feeds
it invalid hex). -/
def hexDecodeChars : List Char → Option (List Byte)
  | [] => some []
  | c1 :: c2 :: rest =>
      match hexDigitVal c1, hexDigitVal c2, hexDecodeChars rest with
      | some h, some l, some bs => some (⟨h.val * 16 + l.val, by omega⟩ :: bs)
      | _, _, _ => none
  | [_] => none

theorem hexDigitVal_hexDigitChar : ∀ n : Fin 16, hexDigitVal (hexDigitChar n) = some n := by
  decide

theorem hexDigitChar_ne_colon : ∀ n : Fin 16, hexDigitChar n ≠ ':' := by
  decide

theorem hexDecode_hexEncode (bs : List Byte) :
    hexDecodeChars (hexEncodeBytes bs) = some bs := by
  induction bs with
  | nil => rfl
  | cons b bs ih =>
    simp only [hexEncodeBytes, hexDecodeChars, hexDigitVal_hexDigitChar, ih]
    congr 1
    congr 1
    apply Fin.ext
    show b.val / 16 * 16 + b.val % 16 = b.val
    omega

theorem hexEncodeBytes_injective {a b : List Byte}
    (h : hexEncodeBytes a = hexEncodeBytes b) : a = b := by
  have ha := hexDecode_hexEncode a
  rw [h, hexDecode_hexEncode] at ha
  exact (Option.some.injEq _ _ ▸ ha).symm

theorem colon_not_mem_hexEncode (bs : List Byte) :
    ':' ∉ hexEncodeBytes bs := by
  induction bs with
  | nil => simp [hexEncodeBytes]
  | cons b bs ih =>
    simp only [hexEncodeBytes, List.mem_cons, not_or]
    exact ⟨fun hc => hexDigitChar_ne_colon _ hc.symm,
           fun hc => hexDigitChar_ne_colon _ hc.symm, ih⟩

theorem jsSplitList_ne_nil (sep : Char) (l : List Char) :
    jsSplitList sep l ≠ [] := by
  cases l with
  | nil => simp [jsSplitList]
  | cons c rest =>
    simp only [jsSplitList]
    by_cases hc : c = sep
    · simp [hc]
    · rw [if_neg hc]
      cases hg : jsSplitList sep rest with
      | nil => simp
      | cons g gs => simp

theorem jsSplitList_no_sep (sep : Char) (a : List Char) (h : sep ∉ a) :
    jsSplitList sep a = [a] := by
  induction a with
  | nil => rfl
  | cons c rest ih =>
    simp only [List.mem_cons, not_or] at h
    simp only [jsSplitList]
    rw [if_neg (fun hc => h.1 hc.symm)]
    rw [ih h.2]

theorem jsSplitList_append_sep (sep : Char) (a b : List Char) (h : sep ∉ a) :
    jsSplitList sep (a ++ sep :: b) = a :: jsSplitList sep b := by
  induction a with
  | nil => simp [jsSplitList]
  | cons c rest ih =>
    simp only [List.mem_cons, not_or] at h
    simp only [List.cons_append, jsSplitList, List.append_eq]
    rw [if_neg (fun hc => h.1 hc.symm)]
    rw [ih h.2]

/-- Abstract model of the Node `aes-256-gcm` cipher used by TokenManager:
`enc key iv plaintext = (ciphertext bytes, auth tag)` and
`dec key iv tag ciphertext` recovers the plaintext (or fails to
authenticate).  The three laws are the standard GCM facts the repository's
code relies on: decryption inverts encryption, GCM is length-preserving so
the ciphertext is empty exactly for the empty plaintext, and the auth tag is
16 bytes. -/
structure AEAD where
  enc : List Byte → List Byte → String → List Byte × List Byte
  dec : List Byte → List Byte → List Byte → List Byte → Option String
  dec_enc : ∀ key iv t, dec key iv (enc key iv t).2 (enc key iv t).1 = some t
  ct_nil_iff : ∀ key iv t, ((enc key iv t).1 = [] ↔ t = "")
  tag_len : ∀ key iv t, (enc key iv t).2.length = 16

/-- Embedding of `TokenManager.encrypt` (token-manager.ts lines 334-346): a
random 16-byte IV is drawn (passed in here), the text is encrypted, and the
stored string is `ivHex:authTagHex:ciphertextHex`. -/
def encrypt (A : AEAD) (key iv : List Byte) (text : String) : String :=
  String.mk (hexEncodeBytes iv) ++ ":" ++
  String.mk (hexEncodeBytes (A.enc key iv text).2) ++ ":" ++
  String.mk (hexEncodeBytes (A.enc key iv text).1)

/-- Embedding of `TokenManager.decrypt` (token-manager.ts lines 353-373):
split on `:`, reject a missing or empty part (the JS falsy check on the
destructured `[ivHex, authTagHex, encryptedHex]`), hex-decode, then decipher
with the auth tag set. -/
def decrypt (A : AEAD) (key : List Byte) (encryptedText : String) :
    Except String String :=
  match jsSplit ':' encryptedText with
  | ivHex :: authTagHex :: encryptedHex :: _ =>
      if ivHex = "" ∨ authTagHex = "" ∨ encryptedHex = "" then
        Except.error "Invalid encrypted text format"
      else
        match hexDecodeChars ivHex.data, hexDecodeChars authTagHex.data,
            hexDecodeChars encryptedHex.data with
        | some iv, some authTag, some ct =>
            match A.dec key iv authTag ct with
            | some t => Except.ok t
            | none => Except.error "Unable to authenticate data"
        | _, _, _ => Except.error "Invalid hex encoding"
  | _ => Except.error "Invalid encrypted text format"

/-- Splitting the stored ciphertext on `:` recovers exactly the hex-encoded
IV, auth tag and ciphertext, because hex digits are never `:`. -/
theorem encrypt_jsSplit (A : AEAD) (key iv : List Byte) (t : String) :
    jsSplit ':' (encrypt A key iv t) =
      [String.mk (hexEncodeBytes iv),
       String.mk (hexEncodeBytes (A.enc key iv t).2),
       String.mk (hexEncodeBytes (A.enc key iv t).1)] := by
  unfold jsSplit encrypt
  have hdata :
      (String.mk (hexEncodeBytes iv) ++ ":" ++
        String.mk (hexEncodeBytes (A.enc key iv t).2) ++ ":" ++
        String.mk (hexEncodeBytes (A.enc key iv t).1)).data =
      hexEncodeBytes iv ++ ':' ::
        (hexEncodeBytes (A.enc key iv t).2 ++ ':' ::
          hexEncodeBytes (A.enc key iv t).1) := by
    simp [String.data_append]
  rw [hdata]
  rw [jsSplitList_append_sep ':' _ _ (colon_not_mem_hexEncode iv)]
  rw [jsSplitList_append_sep ':' _ _ (colon_not_mem_hexEncode _)]
  rw [jsSplitList_no_sep ':' _ (colon_not_mem_hexEncode _)]
  rfl

theorem hexEncodeBytes_eq_nil_iff (bs : List Byte) :
    hexEncodeBytes bs = [] ↔ bs = [] := by
  cases bs <;> simp [hexEncodeBytes]

/-- Round trip of the TokenManager cipher for a non-empty token and a 16-byte
IV. -/
theorem decrypt_encrypt_of_ne (A : AEAD) (key iv : List Byte) (t : String)
    (hiv : iv.length = 16) (ht : t ≠ "") :
    decrypt A key (encrypt A key iv t) = Except.ok t := by
  unfold decrypt
  rw [encrypt_jsSplit]
  have hivne : ¬ iv = [] := by
    intro hc
    rw [hc] at hiv
    exact absurd hiv (by decide)
  have htagne : ¬ (A.enc key iv t).2 = [] := by
    intro hc
    have := A.tag_len key iv t
    rw [hc] at this
    exact absurd this (by decide)
  have hctne : ¬ (A.enc key iv t).1 = [] := fun hc => ht ((A.ct_nil_iff key iv t).mp hc)
  have hcond : ¬ (String.mk (hexEncodeBytes iv) = "" ∨
      String.mk (hexEncodeBytes (A.enc key iv t).2) = "" ∨
      String.mk (hexEncodeBytes (A.enc key iv t).1) = "") := by
    simp only [not_or]
    refine ⟨fun hc => ?_, fun hc => ?_, fun hc => ?_⟩
    · exact hivne ((hexEncodeBytes_eq_nil_iff iv).mp (congrArg String.data hc))
    · exact htagne ((hexEncodeBytes_eq_nil_iff _).mp (congrArg String.data hc))
    · exact hctne ((hexEncodeBytes_eq_nil_iff _).mp (congrArg String.data hc))
  dsimp only
  rw [if_neg hcond]
  simp only [hexDecode_hexEncode, A.dec_enc]

/-- Lower bound on character codes, from the validity invariant of `Char`. -/
theorem char_toNat_lt (c : Char) : c.toNat < 1114112 := by
  change c.val.toNat < 1114112
  rcases c.valid with h | h <;> omega

/-- Big-endian three-byte encoding of one character, for the concrete cipher
instance used in witnesses. -/
def charToBytes (c : Char) : List Byte :=
  [⟨c.toNat / 65536, by have := char_toNat_lt c; omega⟩,
   ⟨c.toNat / 256 % 256, by omega⟩,
   ⟨c.toNat % 256, by omega⟩]

/-- Three bytes per character, for the concrete cipher instance. -/
def charsToBytes : List Char → List Byte
  | [] => []
  | c :: cs => charToBytes c ++ charsToBytes cs

/-- Inverse of `charsToBytes`. -/
def bytesToChars : List Byte → Option (List Char)
  | [] => some []
  | b2 :: b1 :: b0 :: rest =>
      match bytesToChars rest with
      | some cs =>
          some (Char.ofNat (b2.val * 65536 + b1.val * 256 + b0.val) :: cs)
      | none => none
  | _ => none

theorem bytesToChars_charsToBytes (cs : List Char) :
    bytesToChars (charsToBytes cs) = some cs := by
  induction cs with
  | nil => rfl
  | cons c cs ih =>
    have h : c.toNat / 65536 * 65536 + c.toNat / 256 % 256 * 256 + c.toNat % 256 =
        c.toNat := by
      omega
    simp [charsToBytes, charToBytes, bytesToChars, ih, h, Char.ofNat_toNat]

theorem charsToBytes_eq_nil_iff (cs : List Char) :
    charsToBytes cs = [] ↔ cs = [] := by
  cases cs <;> simp [charsToBytes, charToBytes]

/-- Concrete cipher satisfying the `AEAD` laws, used to instantiate the
witnesses and the counterexample (the real cipher is the Node library's
AES-256-GCM, external to the repository). -/
def toyAEAD : AEAD where
  enc := fun _ _ t => (charsToBytes t.data, List.replicate 16 ⟨0, by omega⟩)
  dec := fun _ _ _ ct => (bytesToChars ct).map String.mk
  dec_enc := by
    intro key iv t
    simp [bytesToChars_charsToBytes]
  ct_nil_iff := by
    intro key iv t
    simp only [charsToBytes_eq_nil_iff]
    constructor
    · intro h
      exact String.ext (h.trans rfl)
    · intro h
      rw [h]
  tag_len := by
    intro key iv t
    simp

/-- The 16-byte IV used in the C4 witness and counterexample. -/
def c4iv : List Byte := List.replicate 16 ⟨0, by omega⟩

/-- C4 counterexample: for the empty token the stored ciphertext part is the
empty hex string (GCM is length-preserving), the JS falsy check in `decrypt`
rejects it as "Invalid encrypted text format", and the round trip fails. -/
theorem c4_empty_token_roundtrip_fails :
    decrypt toyAEAD [] (encrypt toyAEAD [] c4iv "") =
      Except.error "Invalid encrypted text format" ∧
    decrypt toyAEAD [] (encrypt toyAEAD [] c4iv "") ≠ Except.ok "" := by
  exact ⟨by decide, by decide⟩

/-- C4 (amended): for every non-empty token T and any key, with a fresh
16-byte IV, `decrypt (encrypt T) = T`; the stored string splits on `:` into
exactly the hex-encoded IV, auth tag and ciphertext; and two `encrypt` calls
with different IVs produce different stored strings.  (For the empty token
the round trip fails: the ciphertext part is empty and `decrypt` rejects the
stored string as invalid.) -/
theorem tokenManager_encrypt_decrypt_spec :
    (∀ (A : AEAD) (key iv : List Byte) (t : String),
        iv.length = 16 → t ≠ "" →
        decrypt A key (encrypt A key iv t) = Except.ok t) ∧
    (∀ (A : AEAD) (key iv : List Byte) (t : String),
        jsSplit ':' (encrypt A key iv t) =
          [String.mk (hexEncodeBytes iv),
           String.mk (hexEncodeBytes (A.enc key iv t).2),
           String.mk (hexEncodeBytes (A.enc key iv t).1)]) ∧
    (∀ (A : AEAD) (key iv1 iv2 : List Byte) (t : String),
        iv1 ≠ iv2 → encrypt A key iv1 t ≠ encrypt A key iv2 t) := by
  refine ⟨decrypt_encrypt_of_ne, encrypt_jsSplit, ?_⟩
  intro A key iv1 iv2 t hne heq
  have h1 := encrypt_jsSplit A key iv1 t
  have h2 := encrypt_jsSplit A key iv2 t
  rw [heq, h2] at h1
  have hhead : String.mk (hexEncodeBytes iv2) = String.mk (hexEncodeBytes iv1) := by
    injection h1
  exact hne (hexEncodeBytes_injective (congrArg String.data hhead)).symm

/-- Witness for `tokenManager_encrypt_decrypt_spec`: a concrete non-empty
token round-trips through the concrete cipher. -/
theorem tokenManager_encrypt_decrypt_spec_witness :
    c4iv.length = 16 ∧ ("secret-token" : String) ≠ "" ∧
    decrypt toyAEAD [] (encrypt toyAEAD [] c4iv "secret-token") =
      Except.ok "secret-token" :=
  ⟨by decide, by decide,
    tokenManager_encrypt_decrypt_spec.1 toyAEAD [] c4iv "secret-token"
      (by decide) (by decide)⟩

/-! TokenManager session store (token-manager.ts lines 383-556), over the
`oauth_sessions` Prisma rows. -/

/-- One `oauth_sessions` row (schema.prisma `OAuthSession`), with the fields
TokenManager reads or writes.  Token and private-key fields hold the
encrypted stored strings. -/
structure SessionRow where
  id : String
  userId : String
  accessToken : String
  refreshToken : String
  dPopPrivateKey : String
  dPopPublicKey : String
  dPopKeyId : String
  expiresAt : Int
  refreshExpiresAt : Int
  isActive : Bool
  createdAt : Int
deriving DecidableEq, Repr

/-- Return value of `TokenManager.getTokens` (the decrypted material; the
`JSON.parse` of the private-key JWK is left as the decrypted string). -/
structure TokenBundle where
  accessToken : String
  refreshToken : String
  expiresAt : Int
  dPopPrivateKey : String
  dPopPublicKey : String
deriving DecidableEq, Repr

/-- Return value of `TokenManager.getTokensForUser`. -/
structure UserTokens where
  sessionId : String
  accessToken : String
  refreshToken : String
  expiresAt : Int
  dPopPrivateKey : String
  dPopPublicKey : String
deriving DecidableEq, Repr

/-- Embedding of `prisma.oAuthSession.findUnique({ where: { id } })`. -/
def findUnique (db : List SessionRow) (sessionId : String) : Option SessionRow :=
  db.find? (fun s => s.id == sessionId)

/-- Embedding of `TokenManager.getTokens` (lines 451-484): reject a missing
session, reject an inactive session, then decrypt and return the material.
There is no check of `refreshExpiresAt`. -/
def getTokens (A : AEAD) (key : List Byte) (db : List SessionRow)
    (sessionId : String) : Except String TokenBundle :=
  match findUnique db sessionId with
  | none => Except.error "Session not found"
  | some session =>
      if session.isActive = false then Except.error "Session is inactive"
      else
        match decrypt A key session.accessToken with
        | Except.error e => Except.error e
        | Except.ok accessToken =>
            match decrypt A key session.refreshToken with
            | Except.error e => Except.error e
            | Except.ok refreshToken =>
                match decrypt A key session.dPopPrivateKey with
                | Except.error e => Except.error e
                | Except.ok dPopPrivateKey =>
                    Except.ok { accessToken := accessToken,
                                refreshToken := refreshToken,
                                expiresAt := session.expiresAt,
                                dPopPrivateKey := dPopPrivateKey,
                                dPopPublicKey := session.dPopPublicKey }

/-- The `where` clause of `TokenManager.getTokensForUser`: sessions of the
user that are active with `refreshExpiresAt > now`. -/
def activeSessionsFor (db : List SessionRow) (userId : String) (now : Int) :
    List SessionRow :=
  db.filter (fun s => s.userId == userId && s.isActive && decide (now < s.refreshExpiresAt))

/-- Embedding of `findFirst` with `orderBy: { createdAt: 'desc' }`: the
candidate with the greatest `createdAt`. -/
def latestByCreatedAt : List SessionRow → Option SessionRow
  | [] => none
  | s :: rest =>
      match latestByCreatedAt rest with
      | none => some s
      | some t => if t.createdAt > s.createdAt then some t else some s

/-- Embedding of `TokenManager.getTokensForUser` (lines 491-529): pick the
most recent active, non-refresh-expired session of the user (the expiry is a
query filter, not a distinct error), then decrypt and return the material. -/
def getTokensForUser (A : AEAD) (key : List Byte) (db : List SessionRow)
    (userId : String) (now : Int) : Except String UserTokens :=
  match latestByCreatedAt (activeSessionsFor db userId now) with
  | none => Except.error "No active session found for user"
  | some session =>
      match decrypt A key session.accessToken with
      | Except.error e => Except.error e
      | Except.ok accessToken =>
          match decrypt A key session.refreshToken with
          | Except.error e => Except.error e
          | Except.ok refreshToken =>
              match decrypt A key session.dPopPrivateKey with
              | Except.error e => Except.error e
              | Except.ok dPopPrivateKey =>
                  Except.ok { sessionId := session.id,
                              accessToken := accessToken,
                              refreshToken := refreshToken,
                              expiresAt := session.expiresAt,
                              dPopPrivateKey := dPopPrivateKey,
                              dPopPublicKey := session.dPopPublicKey }

/-- Embedding of `TokenManager.updateTokens` (lines 423-444): the session row
update writes only the two re-encrypted tokens, the new access-token expiry
`now + expiresIn * 1000`, and `isActive = true`. -/
def updateTokens (A : AEAD) (key ivA ivR : List Byte) (s : SessionRow)
    (accessToken refreshToken : String) (expiresIn now : Int) : SessionRow :=
  { s with accessToken := encrypt A key ivA accessToken,
           refreshToken := encrypt A key ivR refreshToken,
           expiresAt := now + expiresIn * 1000,
           isActive := true }

theorem latestByCreatedAt_mem {l : List SessionRow} {s : SessionRow}
    (h : latestByCreatedAt l = some s) : s ∈ l := by
  induction l with
  | nil => exact Option.noConfusion h
  | cons a rest ih =>
    unfold latestByCreatedAt at h
    cases hr : latestByCreatedAt rest with
    | none =>
      rw [hr] at h
      dsimp only at h
      injection h with h
      subst h
      exact List.mem_cons_self a rest
    | some t =>
      rw [hr] at h
      dsimp only at h
      split at h
      · injection h with h
        subst h
        exact List.mem_cons_of_mem a (ih hr)
      · injection h with h
        subst h
        exact List.mem_cons_self a rest

/-! Claim C7: rejection rules of `getTokens` and `getTokensForUser`.
`getTokens` checks only existence and the active flag — it never checks
`refreshExpiresAt`, so an active but refresh-expired session has its tokens
decrypted and returned. -/

/-- Active session whose refresh expiry is in the past, with tokens encrypted
under the concrete cipher. -/
def c7Session : SessionRow :=
  { id := "s1", userId := "u1",
    accessToken := encrypt toyAEAD [] c4iv "AT",
    refreshToken := encrypt toyAEAD [] c4iv "RT",
    dPopPrivateKey := encrypt toyAEAD [] c4iv "PK",
    dPopPublicKey := "PUB", dPopKeyId := "KID",
    expiresAt := 50, refreshExpiresAt := 0, isActive := true, createdAt := 0 }

/-- C7 counterexample: at time 100 the session's refresh expiry (0) is in the
past, yet `getTokens` decrypts and returns its tokens instead of rejecting it
with an "expired" error. -/
theorem c7_expired_session_tokens_returned :
    c7Session.isActive = true ∧
    c7Session.refreshExpiresAt ≤ (100 : Int) ∧
    getTokens toyAEAD [] [c7Session] "s1" = Except.ok
      { accessToken := "AT", refreshToken := "RT", expiresAt := 50,
        dPopPrivateKey := "PK", dPopPublicKey := "PUB" } := by
  exact ⟨rfl, by decide, by decide⟩

/-- C7 (amended): `getTokens` rejects a missing session and a session with
`active=false` ("Session is inactive"), but performs no refresh-expiry check:
an active session whose refresh expiry has passed still has its tokens
decrypted and returned.  `getTokensForUser` never returns an inactive or
refresh-expired session — it excludes both through its query filter — but
reports them as "No active session found for user", not as a distinct
"expired" error kind. -/
theorem tokenStore_get_spec :
    (∀ (A : AEAD) (key : List Byte) (db : List SessionRow) (sid : String),
        findUnique db sid = none →
        getTokens A key db sid = Except.error "Session not found") ∧
    (∀ (A : AEAD) (key : List Byte) (db : List SessionRow) (sid : String)
        (s : SessionRow),
        findUnique db sid = some s → s.isActive = false →
        getTokens A key db sid = Except.error "Session is inactive") ∧
    (∀ (A : AEAD) (key : List Byte) (db : List SessionRow) (uid : String)
        (now : Int) (u : UserTokens),
        getTokensForUser A key db uid now = Except.ok u →
        ∃ s : SessionRow,
          latestByCreatedAt (activeSessionsFor db uid now) = some s ∧
          s.isActive = true ∧ now < s.refreshExpiresAt ∧ u.sessionId = s.id) ∧
    (∀ (A : AEAD) (key : List Byte) (db : List SessionRow) (sid : String)
        (s : SessionRow) (a r p : String) (now : Int),
        findUnique db sid = some s → s.isActive = true →
        s.refreshExpiresAt ≤ now →
        decrypt A key s.accessToken = Except.ok a →
        decrypt A key s.refreshToken = Except.ok r →
        decrypt A key s.dPopPrivateKey = Except.ok p →
        getTokens A key db sid = Except.ok
          { accessToken := a, refreshToken := r, expiresAt := s.expiresAt,
            dPopPrivateKey := p, dPopPublicKey := s.dPopPublicKey }) := by
  refine ⟨?_, ?_, ?_, ?_⟩
  · intro A key db sid h
    unfold getTokens
    rw [h]
  · intro A key db sid s h h2
    unfold getTokens
    rw [h]
    dsimp only
    rw [if_pos h2]
  · intro A key db uid now u h
    unfold getTokensForUser at h
    cases hm : latestByCreatedAt (activeSessionsFor db uid now) with
    | none =>
      rw [hm] at h
      exact Except.noConfusion h
    | some s =>
      rw [hm] at h
      dsimp only at h
      have hmem := latestByCreatedAt_mem hm
      unfold activeSessionsFor at hmem
      rw [List.mem_filter] at hmem
      have hb := hmem.2
      simp only [Bool.and_eq_true, beq_iff_eq, decide_eq_true_eq] at hb
      refine ⟨s, rfl, hb.1.2, hb.2, ?_⟩
      cases hd1 : decrypt A key s.accessToken with
      | error e =>
        rw [hd1] at h
        exact Except.noConfusion h
      | ok a =>
        rw [hd1] at h
        dsimp only at h
        cases hd2 : decrypt A key s.refreshToken with
        | error e =>
          rw [hd2] at h
          exact Except.noConfusion h
        | ok r =>
          rw [hd2] at h
          dsimp only at h
          cases hd3 : decrypt A key s.dPopPrivateKey with
          | error e =>
            rw [hd3] at h
            exact Except.noConfusion h
          | ok p =>
            rw [hd3] at h
            dsimp only at h
            injection h with h
            subst h
            rfl
  · intro A key db sid s a r p now h1 h2 hexp ha hr hp
    unfold getTokens
    rw [h1]
    dsimp only
    rw [if_neg (by simp [h2])]
    rw [ha]
    dsimp only
    rw [hr]
    dsimp only
    rw [hp]

/-- Witness for `tokenStore_get_spec`: its no-expiry-check clause evaluated on
the concrete expired-but-active session. -/
theorem tokenStore_get_spec_witness :
    findUnique [c7Session] "s1" = some c7Session ∧
    c7Session.isActive = true ∧
    c7Session.refreshExpiresAt ≤ (100 : Int) ∧
    getTokens toyAEAD [] [c7Session] "s1" = Except.ok
      { accessToken := "AT", refreshToken := "RT",
        expiresAt := c7Session.expiresAt,
        dPopPrivateKey := "PK", dPopPublicKey := c7Session.dPopPublicKey } :=
  ⟨by decide, rfl, by decide,
    tokenStore_get_spec.2.2.2 toyAEAD [] [c7Session] "s1" c7Session
      "AT" "RT" "PK" 100 (by decide) rfl (by decide)
      (by decide) (by decide) (by decide)⟩

/-! Claim C10: the frame of `updateTokens`. -/

/-- C10: `updateTokens` writes exactly the re-encrypted access token, the
re-encrypted refresh token, the new access-token expiry and the active flag;
the refresh expiry, the encrypted DPoP private key, the DPoP public key and
the DPoP key id (as well as id, userId and createdAt) keep their prior
values. -/
theorem updateTokens_frame (A : AEAD) (key ivA ivR : List Byte)
    (s : SessionRow) (accessToken refreshToken : String) (expiresIn now : Int) :
    (updateTokens A key ivA ivR s accessToken refreshToken expiresIn now).refreshExpiresAt = s.refreshExpiresAt ∧
    (updateTokens A key ivA ivR s accessToken refreshToken expiresIn now).dPopPrivateKey = s.dPopPrivateKey ∧
    (updateTokens A key ivA ivR s accessToken refreshToken expiresIn now).dPopPublicKey = s.dPopPublicKey ∧
    (updateTokens A key ivA ivR s accessToken refreshToken expiresIn now).dPopKeyId = s.dPopKeyId ∧
    (updateTokens A key ivA ivR s accessToken refreshToken expiresIn now).id = s.id ∧
    (updateTokens A key ivA ivR s accessToken refreshToken expiresIn now).userId = s.userId ∧
    (updateTokens A key ivA ivR s accessToken refreshToken expiresIn now).createdAt = s.createdAt ∧
    (updateTokens A key ivA ivR s accessToken refreshToken expiresIn now).accessToken = encrypt A key ivA accessToken ∧
    (updateTokens A key ivA ivR s accessToken refreshToken expiresIn now).refreshToken = encrypt A key ivR refreshToken ∧
    (updateTokens A key ivA ivR s accessToken refreshToken expiresIn now).expiresAt = now + expiresIn * 1000 ∧
    (updateTokens A key ivA ivR s accessToken refreshToken expiresIn now).isActive = true :=
  ⟨rfl, rfl, rfl, rfl, rfl, rfl, rfl, rfl, rfl, rfl, rfl⟩

/-! DPoPManager (dpop-manager.ts) and BlueskyApiClient (api-client.ts).
The JWS signing itself is the external `jose` library; the proof is modelled
as its protected header and payload, which is what the claims are about. -/

/-- Public JSON Web Key fields carried in the proof header. -/
structure Jwk where
  kty : String
  crv : String
  x : String
  y : String
deriving DecidableEq, Repr

/-- The mutable key state of a `DPoPManager` instance. -/
structure DPoPManagerState where
  privateKey : Option String
  publicJWK : Option Jwk
  keyId : Option String
deriving DecidableEq, Repr

/-- Protected header of a DPoP proof JWS. -/
structure ProofHeader where
  alg : String
  typ : String
  jwk : Jwk
deriving DecidableEq, Repr

/-- Payload of a DPoP proof JWS. -/
structure ProofPayload where
  jti : String
  htm : String
  htu : String
  iat : Int
  nonce : Option String
deriving DecidableEq, Repr

/-- A DPoP proof: protected header plus payload (the ES256 signature is the
external library's work). -/
structure DPoPProofJwt where
  header : ProofHeader
  payload : ProofPayload
deriving DecidableEq, Repr

/-- Embedding of JavaScript `method.toUpperCase()` (ASCII range, which covers
HTTP method names). -/
def jsToUpper (s : String) : String :=
  String.mk (s.data.map Char.toUpper)

/-- Embedding of `DPoPManager.createProof` (dpop-manager.ts lines 86-122).
`jti` (the random UUID) and `iat` (current POSIX seconds) are passed in.
`htm` is the uppercased method; `htu` is the url EXACTLY as passed — no
normalization; a falsy (empty) nonce is not added. -/
def createProof (st : DPoPManagerState) (method url : String)
    (nonce : Option String) (jti : String) (iat : Int) :
    Except String DPoPProofJwt :=
  match st.privateKey, st.publicJWK, st.keyId with
  | some _, some jwk, some _ =>
      Except.ok
        { header := { alg := "ES256", typ := "dpop+jwt", jwk := jwk },
          payload := { jti := jti, htm := jsToUpper method, htu := url,
                       iat := iat,
                       nonce := match nonce with
                                | some n => if n = "" then none else some n
                                | none => none } }
  | _, _, _ => Except.error "DPoP key pair not initialized"

/-- URL parser backing `dpopUtils.normalizeUrl`: splits an absolute
`scheme://host/path` URL into scheme, host and pathname (query and fragment
dropped, empty path rendered as `/` as the JS `URL` object does). -/
def parseUrl (s : List Char) : Option (List Char × List Char × List Char) :=
  let schemeSplit := s.span (fun c => !(c == ':'))
  match schemeSplit.2 with
  | ':' :: '/' :: '/' :: rest2 =>
      let hs := rest2.span (fun c => !(c == '/') && !(c == '?') && !(c == '#'))
      if schemeSplit.1.isEmpty || hs.1.isEmpty then none
      else
        let path := hs.2.takeWhile (fun c => !(c == '?') && !(c == '#'))
        some (schemeSplit.1, hs.1, if path.isEmpty then ['/'] else path)
  | _ => none

/-- Embedding of `dpopUtils.normalizeUrl` (dpop-manager.ts lines 391-399):
`protocol + "//" + host + pathname` of a parseable URL (query and fragment
stripped), the input unchanged otherwise.  This utility exists in the source
but `DPoPManager.createProof` and the api client never call it. -/
def normalizeUrl (url : String) : String :=
  match parseUrl url.data with
  | some (scheme, host, pathname) =>
      String.mk (scheme ++ ':' :: '/' :: '/' :: host ++ pathname)
  | none => url

/-- One HTTP response handed to `makeRequest` by the environment. -/
structure HttpResponse where
  ok : Bool
  status : Nat
  dpopNonce : Option String
  body : String
deriving DecidableEq, Repr

/-- Observable outcome of one `makeRequest` call: the returned value or
thrown error, the number of `fetch` calls made, and the DPoP proof that was
minted (if any). -/
structure MakeRequestResult where
  result : Except String String
  fetchCount : Nat
  mintedProof : Option DPoPProofJwt
deriving DecidableEq, Repr

/-- Embedding of `BlueskyApiClient.makeRequest` (api-client.ts lines 33-104).
Control flow from the source: get the user's tokens; if the access token is
expired, call the stub `refreshToken` which always throws, so the catch
rethrows an authentication error before any fetch; mint one DPoP proof for
`baseUrl + endpoint` (the code passes the DPoP *private key* where
`createProof` expects the optional nonce); make exactly one `fetch`; throw on
any non-ok response.  The `DPoP-Nonce` response header is never read (that
code is commented out) and there is no retry of any kind. -/
def makeRequest (st : DPoPManagerState) (baseUrl endpoint method : String)
    (tokens : Except String UserTokens) (now : Int) (jti : String) (iat : Int)
    (resp : HttpResponse) : MakeRequestResult :=
  let url := baseUrl ++ endpoint
  match tokens with
  | Except.error e =>
      { result := Except.error e, fetchCount := 0, mintedProof := none }
  | Except.ok tk =>
      if tk.expiresAt ≤ now then
        { result := Except.error "Authentication failed: token expired and refresh failed",
          fetchCount := 0, mintedProof := none }
      else
        match createProof st method url (some tk.dPopPrivateKey) jti iat with
        | Except.error e =>
            { result := Except.error e, fetchCount := 0, mintedProof := none }
        | Except.ok pf =>
            if resp.ok = false then
              { result := Except.error ("API request failed: " ++ toString resp.status),
                fetchCount := 1, mintedProof := some pf }
            else
              { result := Except.ok resp.body, fetchCount := 1, mintedProof := some pf }

/-- Contents of any successfully minted proof, for an arbitrary manager
state. -/
theorem createProof_ok_contents (st : DPoPManagerState) (method url : String)
    (nonce : Option String) (jti : String) (iat : Int) (pf : DPoPProofJwt)
    (h : createProof st method url nonce jti iat = Except.ok pf) :
    pf.payload.htu = url ∧ pf.payload.htm = jsToUpper method ∧
    pf.header.alg = "ES256" ∧ pf.header.typ = "dpop+jwt" ∧
    pf.payload.jti = jti ∧ pf.payload.iat = iat := by
  unfold createProof at h
  rcases st with ⟨priv, pub, kid⟩
  cases priv <;> cases pub <;> cases kid <;> dsimp only at h <;>
    first
      | exact Except.noConfusion h
      | (injection h with h
         subst h
         exact ⟨rfl, rfl, rfl, rfl, rfl, rfl⟩)

/-! Claims C5 and C6: concrete inputs for the api-client. -/

/-- Concrete public JWK. -/
def jwk0 : Jwk := { kty := "EC", crv := "P-256", x := "X", y := "Y" }

/-- Initialized DPoP manager state. -/
def st0 : DPoPManagerState :=
  { privateKey := some "PRIV", publicJWK := some jwk0, keyId := some "KID" }

/-- Concrete unexpired token bundle for the api-client. -/
def tk0 : UserTokens :=
  { sessionId := "s1", accessToken := "AT", refreshToken := "RT",
    expiresAt := 100, dPopPrivateKey := "PK", dPopPublicKey := "PUB" }

/-- The query-carrying request URL of the C5 counterexample. -/
def c5url : String := "https://bsky.social/xrpc/com.atproto.repo.getRecord?repo=alice"

/-- The proof the api-client mints for `c5url`. -/
def c5pf : DPoPProofJwt :=
  { header := { alg := "ES256", typ := "dpop+jwt", jwk := jwk0 },
    payload := { jti := "jti-1", htm := "GET", htu := c5url, iat := 5,
                 nonce := some "PK" } }

/-- C5 counterexample: for a request whose URL carries a query string, the
proof minted by the api-client keeps the full URL — query included — as
`htu`; it differs from the scheme+host+path normalization the claim
requires.  (The payload also shows the private-key string in the `nonce`
slot: the client passes the key where `createProof` expects the nonce.) -/
theorem c5_htu_keeps_query :
    (makeRequest st0 "https://bsky.social"
        "/xrpc/com.atproto.repo.getRecord?repo=alice" "GET"
        (Except.ok tk0) 0 "jti-1" 5
        { ok := true, status := 200, dpopNonce := none, body := "done" }).mintedProof
      = some c5pf ∧
    c5pf.payload.htu = c5url ∧
    normalizeUrl c5url = "https://bsky.social/xrpc/com.atproto.repo.getRecord" ∧
    c5pf.payload.htu ≠ normalizeUrl c5pf.payload.htu := by
  exact ⟨by decide, rfl, by decide, by decide⟩

/-- C5 (amended): every proof minted by `createProof` carries the protected
header `alg=ES256`, `typ=dpop+jwt` with the embedded public JWK, the
uppercased method as `htm`, the supplied fresh `jti`, and as `htu` the
request URL EXACTLY as passed — the query is NOT stripped (the
`normalizeUrl` utility exists but is not called), so api-client proofs for
query-carrying URLs keep the query in `htu`. -/
theorem dpopProof_contents_spec :
    (∀ (pk : String) (jwk : Jwk) (kid : String) (method url : String)
        (nonce : Option String) (jti : String) (iat : Int),
        createProof ⟨some pk, some jwk, some kid⟩ method url nonce jti iat =
          Except.ok
            { header := { alg := "ES256", typ := "dpop+jwt", jwk := jwk },
              payload := { jti := jti, htm := jsToUpper method, htu := url,
                           iat := iat,
                           nonce := match nonce with
                                    | some n => if n = "" then none else some n
                                    | none => none } }) ∧
    (∀ (st : DPoPManagerState) (baseUrl endpoint method : String)
        (tokens : Except String UserTokens) (now : Int) (jti : String)
        (iat : Int) (resp : HttpResponse) (pf : DPoPProofJwt),
        (makeRequest st baseUrl endpoint method tokens now jti iat resp).mintedProof = some pf →
        pf.payload.htu = baseUrl ++ endpoint ∧
        pf.payload.htm = jsToUpper method ∧
        pf.header.alg = "ES256" ∧ pf.header.typ = "dpop+jwt" ∧
        pf.payload.jti = jti) := by
  constructor
  · intro pk jwk kid method url nonce jti iat
    rfl
  · intro st baseUrl endpoint method tokens now jti iat resp pf h
    unfold makeRequest at h
    cases tokens with
    | error e => exact Option.noConfusion h
    | ok tk =>
      dsimp only at h
      split at h
      · exact Option.noConfusion h
      · cases hcp : createProof st method (baseUrl ++ endpoint)
            (some tk.dPopPrivateKey) jti iat with
        | error e =>
          rw [hcp] at h
          exact Option.noConfusion h
        | ok q =>
          rw [hcp] at h
          dsimp only at h
          have hq : q = pf := by
            by_cases hro : resp.ok = false
            · rw [if_pos hro] at h
              exact Option.some.inj h
            · rw [if_neg hro] at h
              exact Option.some.inj h
          subst hq
          have hc := createProof_ok_contents st method (baseUrl ++ endpoint)
            (some tk.dPopPrivateKey) jti iat q hcp
          exact ⟨hc.1, hc.2.1, hc.2.2.1, hc.2.2.2.1, hc.2.2.2.2.1⟩

/-- The proof minted in the C5 witness (lower-case method uppercased). -/
def c5wpf : DPoPProofJwt :=
  { header := { alg := "ES256", typ := "dpop+jwt", jwk := jwk0 },
    payload := { jti := "jti-3", htm := "GET",
                 htu := "https://bsky.social/xrpc/app.bsky.feed.getTimeline",
                 iat := 7, nonce := some "PK" } }

/-- Witness for `dpopProof_contents_spec`: the api-client part evaluated on a
concrete request. -/
theorem dpopProof_contents_spec_witness :
    (makeRequest st0 "https://bsky.social" "/xrpc/app.bsky.feed.getTimeline"
        "get" (Except.ok tk0) 0 "jti-3" 7
        { ok := true, status := 200, dpopNonce := none, body := "done" }).mintedProof
      = some c5wpf ∧
    (c5wpf.payload.htu = "https://bsky.social" ++ "/xrpc/app.bsky.feed.getTimeline" ∧
     c5wpf.payload.htm = jsToUpper "get" ∧
     c5wpf.header.alg = "ES256" ∧ c5wpf.header.typ = "dpop+jwt" ∧
     c5wpf.payload.jti = "jti-3") :=
  ⟨by decide,
    dpopProof_contents_spec.2 st0 "https://bsky.social"
      "/xrpc/app.bsky.feed.getTimeline" "get" (Except.ok tk0) 0 "jti-3" 7
      { ok := true, status := 200, dpopNonce := none, body := "done" }
      c5wpf (by decide)⟩

/-- The nonce-challenge response of the C6 counterexample. -/
def resp401 : HttpResponse :=
  { ok := false, status := 401, dpopNonce := some "server-nonce",
    body := "use_dpop_nonce" }

/-- C6 counterexample: on a 401 `use_dpop_nonce` response carrying a new
`DPoP-Nonce` header, the client makes exactly one fetch — there is no nonce
retry, no re-minted proof, and the header value is never stored; the call
just fails. -/
theorem c6_no_nonce_retry_on_401 :
    resp401.ok = false ∧ resp401.status = 401 ∧
    resp401.dpopNonce = some "server-nonce" ∧
    (makeRequest st0 "https://bsky.social"
        "/xrpc/com.atproto.repo.createRecord" "POST"
        (Except.ok tk0) 0 "jti-2" 5 resp401).fetchCount = 1 ∧
    (makeRequest st0 "https://bsky.social"
        "/xrpc/com.atproto.repo.createRecord" "POST"
        (Except.ok tk0) 0 "jti-2" 5 resp401).result =
      Except.error "API request failed: 401" := by
  exact ⟨rfl, rfl, rfl, by decide, by decide⟩

/-- C6 (amended): `makeRequest` performs at most one fetch per call, and any
non-2xx response — nonce challenge or not — is surfaced as an error with no
retry; the `DPoP-Nonce` header is never captured (the capture is commented
out in the source). -/
theorem makeRequest_no_nonce_retry :
    (∀ (st : DPoPManagerState) (baseUrl endpoint method : String)
        (tokens : Except String UserTokens) (now : Int) (jti : String)
        (iat : Int) (resp : HttpResponse),
        (makeRequest st baseUrl endpoint method tokens now jti iat resp).fetchCount ≤ 1) ∧
    (∀ (st : DPoPManagerState) (baseUrl endpoint method : String)
        (tk : UserTokens) (now : Int) (jti : String) (iat : Int)
        (resp : HttpResponse) (pf : DPoPProofJwt),
        ¬ tk.expiresAt ≤ now →
        createProof st method (baseUrl ++ endpoint) (some tk.dPopPrivateKey) jti iat =
          Except.ok pf →
        resp.ok = false →
        makeRequest st baseUrl endpoint method (Except.ok tk) now jti iat resp =
          { result := Except.error ("API request failed: " ++ toString resp.status),
            fetchCount := 1, mintedProof := some pf }) := by
  constructor
  · intro st baseUrl endpoint method tokens now jti iat resp
    unfold makeRequest
    cases tokens with
    | error e => exact Nat.zero_le 1
    | ok tk =>
      dsimp only
      split
      · exact Nat.zero_le 1
      · cases hcp : createProof st method (baseUrl ++ endpoint)
            (some tk.dPopPrivateKey) jti iat with
        | error e => exact Nat.zero_le 1
        | ok q =>
          dsimp only
          split
          · exact Nat.le_refl 1
          · exact Nat.le_refl 1
  · intro st baseUrl endpoint method tk now jti iat resp pf hexp hcp hok
    unfold makeRequest
    dsimp only
    rw [if_neg hexp, hcp]
    dsimp only
    rw [if_pos hok]

/-- Witness for `makeRequest_no_nonce_retry`: its error clause evaluated on
the concrete 401 nonce-challenge response. -/
theorem makeRequest_no_nonce_retry_witness :
    ¬ tk0.expiresAt ≤ (0 : Int) ∧ resp401.ok = false ∧
    makeRequest st0 "https://bsky.social" "/xrpc/com.atproto.repo.createRecord"
        "POST" (Except.ok tk0) 0 "jti-2" 5 resp401 =
      { result := Except.error ("API request failed: " ++ toString resp401.status),
        fetchCount := 1,
        mintedProof := some
          { header := { alg := "ES256", typ := "dpop+jwt", jwk := jwk0 },
            payload := { jti := "jti-2", htm := "POST",
                         htu := "https://bsky.social/xrpc/com.atproto.repo.createRecord",
                         iat := 5, nonce := some "PK" } } } :=
  ⟨by decide, rfl,
    makeRequest_no_nonce_retry.2 st0 "https://bsky.social"
      "/xrpc/com.atproto.repo.createRecord" "POST" tk0 0 "jti-2" 5 resp401
      { header := { alg := "ES256", typ := "dpop+jwt", jwk := jwk0 },
        payload := { jti := "jti-2", htm := "POST",
                     htu := "https://bsky.social/xrpc/com.atproto.repo.createRecord",
                     iat := 5, nonce := some "PK" } }
      (by decide) (by decide) rfl⟩

/-! Claim C8: creation-time validation.  The server-side chain is
`CreatePostSchema` (packages/shared/src/types/api.ts lines 100-105, enforced
by the posts router's zValidator) followed by
`PostService.createScheduledPost`.  Neither enforces a five-minute margin:
the schema only refines `date > new Date()` and the service only rejects
`scheduledAt <= now`. -/

/-- UTF-16 length contribution of one character (JS `String.length` counts
UTF-16 code units; zod's `min`/`max` on strings use it). -/
def utf16Length (c : Char) : Nat :=
  if c.toNat < 65536 then 1 else 2

/-- JavaScript `content.length`. -/
def jsLength (s : String) : Nat :=
  (s.data.map utf16Length).sum

/-- Embedding of `CreatePostSchema`: `content: z.string().min(1).max(300)` and
`scheduledAt: z.coerce.date().refine(date => date > new Date())`. -/
def createPostSchemaCheck (content : String) (scheduledAt now : Int) : Bool :=
  decide (1 ≤ jsLength content) && decide (jsLength content ≤ 300) &&
    decide (now < scheduledAt)

/-- Embedding of `POST /posts` (posts-router.ts lines 20-53): the zValidator
rejects a request failing `CreatePostSchema` with a validation error, and the
handler then calls `PostService.createScheduledPost`. -/
def postsRouterCreate (id userId content : String) (scheduledAt now : Int) :
    Except String Post :=
  if createPostSchemaCheck content scheduledAt now = false then
    Except.error "VALIDATION_ERROR"
  else
    createScheduledPost id userId content scheduledAt now

/-- C8 counterexample: a post scheduled only one minute ahead — not later
than now plus five minutes — passes the schema and is created, because no
five-minute margin exists anywhere in the server-side creation path. -/
theorem c8_five_minute_rule_not_enforced :
    (60000 : Int) ≤ 0 + 5 * 60 * 1000 ∧
    postsRouterCreate "p8" "u8" "hello" 60000 0 =
      Except.ok { id := "p8", userId := "u8", content := "hello",
                  scheduledAt := 60000, status := PostStatus.PENDING,
                  createdAt := 0, retryCount := 0 } := by
  exact ⟨by decide, by decide⟩

/-- C8 (amended): post creation rejects a request whose content has JS length
(UTF-16 code units) 0 or greater than 300 — which in particular rejects every
content longer than 300 code points — and rejects a request whose
`scheduledAt` is not strictly in the future; it enforces NO five-minute
margin.  A request passing these checks is created with the submitted content
and scheduled time, as a PENDING post with `retryCount = 0`. -/
theorem createPost_validation_spec :
    (∀ (id userId content : String) (scheduledAt now : Int),
        jsLength content = 0 →
        postsRouterCreate id userId content scheduledAt now =
          Except.error "VALIDATION_ERROR") ∧
    (∀ (id userId content : String) (scheduledAt now : Int),
        300 < jsLength content →
        postsRouterCreate id userId content scheduledAt now =
          Except.error "VALIDATION_ERROR") ∧
    (∀ (id userId content : String) (scheduledAt now : Int),
        scheduledAt ≤ now →
        postsRouterCreate id userId content scheduledAt now =
          Except.error "VALIDATION_ERROR") ∧
    (∀ (id userId content : String) (scheduledAt now : Int),
        1 ≤ jsLength content → jsLength content ≤ 300 → now < scheduledAt →
        postsRouterCreate id userId content scheduledAt now =
          Except.ok { id := id, userId := userId, content := content,
                      scheduledAt := scheduledAt,
                      status := PostStatus.PENDING,
                      createdAt := now, retryCount := 0 }) := by
  refine ⟨?_, ?_, ?_, ?_⟩
  · intro id userId content scheduledAt now h
    simp [postsRouterCreate, createPostSchemaCheck, h]
  · intro id userId content scheduledAt now h
    simp [postsRouterCreate, createPostSchemaCheck, Nat.not_le.mpr h]
  · intro id userId content scheduledAt now h
    simp [postsRouterCreate, createPostSchemaCheck, not_lt.mpr h]
  · intro id userId content scheduledAt now h1 h2 h3
    simp only [postsRouterCreate, createPostSchemaCheck, h1, h2, h3,
      decide_eq_true_eq, decide_True]
    rw [if_neg (by simp [h1, h2, h3])]
    unfold createScheduledPost
    rw [if_neg (not_le.mpr h3)]

/-- Witness for `createPost_validation_spec`: a valid concrete request is
created. -/
theorem createPost_validation_spec_witness :
    1 ≤ jsLength "hi" ∧ jsLength "hi" ≤ 300 ∧ (0 : Int) < 600000 ∧
    postsRouterCreate "p8w" "u8" "hi" 600000 0 =
      Except.ok { id := "p8w", userId := "u8", content := "hi",
                  scheduledAt := 600000, status := PostStatus.PENDING,
                  createdAt := 0, retryCount := 0 } :=
  ⟨by decide, by decide, by decide,
    createPost_validation_spec.2.2.2 "p8w" "u8" "hi" 600000 0
      (by decide) (by decide) (by decide)⟩

end Chronopost
